import Mathlib

/-!
# Verification of the camera frame-processing and capture pipeline

Shallow embedding of the pipeline modules (filters, LUT engine, camera
lifecycle, snapshot capture, gallery, constraint builder) and proofs of the
specified properties.

Pixel buffers (`ImageData.data`) are flat RGBA byte lists.  JavaScript
number arithmetic is IEEE-754 binary64: `fl64` below is the exact rounding
of a nonnegative rational to the nearest binary64 value (53-bit
significand, round to nearest, ties to even), so every floating-point
operation of the source is modelled as the exact rational operation
followed by `fl64`.  A store into a `Uint8ClampedArray` clamps to
`[0, 255]` and rounds to the nearest integer with ties to even; `rne` and
`clampStore` model exactly that.
-/

namespace CamPipeline

/-- Round to the nearest integer, ties to even: the rounding applied when a
numeric value is stored into a `Uint8ClampedArray` slot. -/
def rne (x : ℚ) : ℤ :=
  if x - ⌊x⌋ < 1 / 2 then ⌊x⌋
  else if 1 / 2 < x - ⌊x⌋ then ⌊x⌋ + 1
  else if 2 ∣ ⌊x⌋ then ⌊x⌋ else ⌊x⌋ + 1

/-- Storing a rational value into a `Uint8ClampedArray` slot: clamp into
`[0, 255]`, round to nearest, ties to even. -/
def clampStore (x : ℚ) : ℕ :=
  if x ≤ 0 then 0
  else if 255 ≤ x then 255
  else (rne x).toNat

/-- `⌊log₂ n⌋` by structural recursion on an explicit fuel argument (the
fuel only needs to exceed the bit length of `n`). -/
def log2fuel : ℕ → ℕ → ℕ
  | 0, _ => 0
  | fuel + 1, n => if n < 2 then 0 else log2fuel fuel (n / 2) + 1

/-- `⌊log₂ x⌋` for a positive rational, exact for `2⁻⁶⁰ ≤ x < 2¹⁰`; the
pipeline only applies it to values in `[2⁻⁹, 2⁹)`. -/
def log2floorQ (x : ℚ) : ℤ :=
  (log2fuel 70 ⌊x * 2 ^ 60⌋₊ : ℤ) - 60

/-- Rounding of a nonnegative rational to the nearest IEEE-754 binary64
value: scale into the 53-bit significand range by the power of two given by
`log2floorQ`, round the significand to nearest with ties to even, and scale
back.  This is the value produced by every JavaScript arithmetic operation
whose exact result is `x` (exact throughout the normal, non-overflowing
range used by the pipeline; inputs here lie in `[0, 2⁹)`). -/
def fl64 (x : ℚ) : ℚ :=
  if x ≤ 0 then 0
  else ((rne (x * 2 ^ (52 - log2floorQ x)) : ℤ) : ℚ) / 2 ^ (52 - log2floorQ x)

/-! ## Pixel buffers

`ImageData.data` buffers are flat lists `r :: g :: b :: a :: …`, four bytes
per pixel.  `flatten` builds such a buffer from a list of RGBA pixels. -/

/-- One RGBA pixel: `(r, g, b, a)`. -/
abbrev Pixel := ℕ × ℕ × ℕ × ℕ

/-- Flatten a pixel list into the flat RGBA byte layout of `ImageData.data`. -/
def flatten : List Pixel → List ℕ
  | [] => []
  | (r, g, b, a) :: ps => r :: g :: b :: a :: flatten ps

/-- A buffer holds byte values: every channel of every pixel is ≤ 255. -/
def ByteBuffer (ps : List Pixel) : Prop :=
  ∀ p ∈ ps, p.1 ≤ 255 ∧ p.2.1 ≤ 255 ∧ p.2.2.1 ≤ 255 ∧ p.2.2.2 ≤ 255

/-! ## FilterEngine (js/filters.js) -/

/-- The exact BT.709 luma `0.2126 * r + 0.7152 * g + 0.0722 * b`, the
formula as the specification words it (exact rational arithmetic). -/
def lumaQ (r g b : ℕ) : ℚ :=
  0.2126 * r + 0.7152 * g + 0.0722 * b

/-- The luma as `FilterEngine._grayscale` computes it, in binary64: the
three weight literals are binary64 constants, each product and the
left-associated sums are individually rounded. -/
def lumaD (r g b : ℕ) : ℚ :=
  fl64 (fl64 (fl64 (fl64 0.2126 * r) + fl64 (fl64 0.7152 * g)) + fl64 (fl64 0.0722 * b))

/-- `FilterEngine._grayscale`: for each pixel set all three colour channels
to the binary64 luma (each store clamps and rounds), leave alpha
untouched. -/
def grayscaleData : List ℕ → List ℕ
  | r :: g :: b :: a :: rest =>
      clampStore (lumaD r g b) :: clampStore (lumaD r g b) ::
        clampStore (lumaD r g b) :: a :: grayscaleData rest
  | rest => rest

/-- `FilterEngine._warm`: `data[i] = Math.min(255, data[i] * 1.05)` and
`data[i+2] = Math.max(0, data[i+2] * 0.95)`. -/
def warmData : List ℕ → List ℕ
  | r :: g :: b :: a :: rest =>
      clampStore (min 255 ((r : ℚ) * 1.05)) :: g ::
        clampStore (max 0 ((b : ℚ) * 0.95)) :: a :: warmData rest
  | rest => rest

/-- `FilterEngine._cool`: `data[i] = Math.max(0, data[i] * 0.95)` and
`data[i+2] = Math.min(255, data[i+2] * 1.05)`. -/
def coolData : List ℕ → List ℕ
  | r :: g :: b :: a :: rest =>
      clampStore (max 0 ((r : ℚ) * 0.95)) :: g ::
        clampStore (min 255 ((b : ℚ) * 1.05)) :: a :: coolData rest
  | rest => rest

/-- The grayscale output pixel: all three colour channels carry the
binary64 luma as clamped and rounded (ties to even) by the byte store;
alpha is untouched. -/
def grayPixelSpec (p : Pixel) : Pixel :=
  (clampStore (lumaD p.1 p.2.1 p.2.2.1), clampStore (lumaD p.1 p.2.1 p.2.2.1),
    clampStore (lumaD p.1 p.2.1 p.2.2.1), p.2.2.2)

/-- The warm-filter output pixel: red scaled by 1.05 and capped at 255, blue
scaled by 0.95, green and alpha untouched. -/
def warmPixelSpec (p : Pixel) : Pixel :=
  (clampStore (min 255 ((p.1 : ℚ) * 1.05)), p.2.1,
    clampStore (max 0 ((p.2.2.1 : ℚ) * 0.95)), p.2.2.2)

/-- Mutable state of `FilterEngine` relevant to the exposure / filter
controls. -/
structure FilterEngine where
  exposureEV : ℚ
  activeFilter : String

/-- `FilterEngine.setExposure`: `this.exposureEV = Math.max(-2, Math.min(2, ev))`. -/
def FilterEngine.setExposure (s : FilterEngine) (ev : ℚ) : FilterEngine :=
  { s with exposureEV := max (-2) (min 2 ev) }

/-- `FilterEngine.setFilter`: `this.activeFilter = name`. -/
def FilterEngine.setFilter (s : FilterEngine) (name : String) : FilterEngine :=
  { s with activeFilter := name }

/-- The effect of `FilterEngine._applyFilter` on the surface buffer: the
switch dispatches on the active filter name; the default branch performs no
pass. -/
def applyFilterData (name : String) (data : List ℕ) : List ℕ :=
  if name = "mono" then grayscaleData data
  else if name = "warm" then warmData data
  else if name = "cool" then coolData data
  else data

/-! ## LUTEngine (js/lut-engine.js) -/

/-- State of `LUTEngine`: the flattened RGBA table (or `none` before a
successful load) and the cube edge length. -/
structure LUTEngine where
  lut : Option (List ℕ)
  size : ℕ

/-- The per-pixel loop body of `LUTEngine.apply`: with `max = size - 1` and
the binary64 value `scale = max / 255`, quantize each channel with
`Math.min(max, Math.floor(channel * scale))` (the product again rounded to
binary64), look the bucket up at flattened offset
`(ri + gi*size + bi*size*size) * 4`, overwrite R, G, B from the table and
keep alpha (an out-of-range read stores 0). -/
def lutPass (lut : List ℕ) (size : ℕ) : List ℕ → List ℕ
  | r :: g :: b :: a :: rest =>
      let mx := size - 1
      let scale := fl64 ((mx : ℚ) / 255)
      let ri := min mx ⌊fl64 ((r : ℚ) * scale)⌋₊
      let gi := min mx ⌊fl64 ((g : ℚ) * scale)⌋₊
      let bi := min mx ⌊fl64 ((b : ℚ) * scale)⌋₊
      let index := (ri + gi * size + bi * size * size) * 4
      lut.getD index 0 :: lut.getD (index + 1) 0 :: lut.getD (index + 2) 0 ::
        a :: lutPass lut size rest
  | rest => rest

/-- `LUTEngine.apply`: return the buffer unchanged when `!this.lut || !this.size`,
otherwise run the per-pixel remap. -/
def LUTEngine.apply (e : LUTEngine) (data : List ℕ) : List ℕ :=
  match e.lut with
  | none => data
  | some lut => if e.size = 0 then data else lutPass lut e.size data

/-- The bucket index as the specification words it:
`clamp(floor(channel × (size−1)/255), 0, size−1)`. -/
def lutIndexSpec (size channel : ℕ) : ℕ :=
  min (size - 1) (max 0 ⌊(channel : ℚ) * (size - 1 : ℕ) / 255⌋₊)

/-- The specification-side per-pixel remap for a loaded table, using the
exact-arithmetic bucket formula of the specification. -/
def lutPixelSpec (lut : List ℕ) (size : ℕ) (p : Pixel) : Pixel :=
  let ri := lutIndexSpec size p.1
  let gi := lutIndexSpec size p.2.1
  let bi := lutIndexSpec size p.2.2.1
  let off := (ri + gi * size + bi * size * size) * 4
  (lut.getD off 0, lut.getD (off + 1) 0, lut.getD (off + 2) 0, p.2.2.2)

/-- The bucket index as the code computes it: `channel * ((size−1) / 255)`
with the division and the product each rounded to binary64, floored and
capped at `size − 1`. -/
def lutIndex64 (size channel : ℕ) : ℕ :=
  min (size - 1) ⌊fl64 ((channel : ℚ) * fl64 (((size - 1 : ℕ) : ℚ) / 255))⌋₊

/-- The per-pixel remap for a loaded table with the binary64 bucket
quantization. -/
def lutPixelSpec64 (lut : List ℕ) (size : ℕ) (p : Pixel) : Pixel :=
  let ri := lutIndex64 size p.1
  let gi := lutIndex64 size p.2.1
  let bi := lutIndex64 size p.2.2.1
  let off := (ri + gi * size + bi * size * size) * 4
  (lut.getD off 0, lut.getD (off + 1) 0, lut.getD (off + 2) 0, p.2.2.2)

/-! ## Render step (FilterEngine._render) -/

/-- A `fillStyle` value `rgba(red, green, blue, alpha)`. -/
structure FillStyle where
  red : ℕ
  green : ℕ
  blue : ℕ
  alpha : ℝ

/-- A drawing operation performed on the canvas context during one render step. -/
inductive CanvasOp where
  | drawImage (w h : ℕ)
  | fillRect (style : FillStyle) (x y w h : ℕ)
  | filterPass (name : String)

/-- The exposure stage of `FilterEngine._render`: when `exposureEV !== 0`,
fill the whole surface with white at opacity `(gain - 1) * 0.15` where
`gain = Math.pow(2, exposureEV)`; otherwise perform no fill at all. -/
noncomputable def exposureOps (ev : ℚ) (w h : ℕ) : List CanvasOp :=
  if ev ≠ 0 then
    [CanvasOp.fillRect ⟨255, 255, 255, ((2 : ℝ) ^ (ev : ℝ) - 1) * 0.15⟩ 0 0 w h]
  else []

/-- The sequence of canvas operations of one `FilterEngine._render` step
(after rescheduling itself): skip the tick unless the source is readable
(`readyState ≥ 2`) and the surface has nonzero dimensions; otherwise draw the
video frame, run the exposure stage, then the filter pass. -/
noncomputable def renderStepOps (running : Bool) (readyState : ℕ) (w h : ℕ)
    (ev : ℚ) (filterName : String) : List CanvasOp :=
  if ¬running then []
  else if readyState < 2 then []
  else if w = 0 ∨ h = 0 then []
  else CanvasOp.drawImage w h :: exposureOps ev w h ++ [CanvasOp.filterPass filterName]

/-! ## CameraController (js/camera.js) -/

/-- The fields of `CameraController` governed by `start`/`stop`.  A stream is
modelled as its list of video track handles. -/
structure CameraController where
  stream : Option (List ℕ)
  videoTrack : Option ℕ
  isRunning : Bool

/-- Constructor state: no stream, no track, not running. -/
def initCamera : CameraController := ⟨none, none, false⟩

/-- A lifecycle operation: `start` carries the environment's outcome of
`getUserMedia` (`none` = the request rejected; `some tracks` = a stream with
those video tracks), `stop` takes no argument. -/
inductive CamOp where
  | start (outcome : Option (List ℕ))
  | stop

/-- One `start`/`stop` call.  `start` returns immediately when already
running; on acquisition failure the error is rethrown with the fields
untouched; on success it records the stream, the first video track
(`getVideoTracks()[0]`), and sets `isRunning`.  `stop` returns when no
stream is held, otherwise stops every track and nulls all fields. -/
def camStep (s : CameraController) : CamOp → CameraController
  | .start outcome =>
      if s.isRunning then s
      else
        match outcome with
        | none => s
        | some tracks => ⟨some tracks, tracks.head?, true⟩
  | .stop =>
      match s.stream with
      | none => s
      | some _ => ⟨none, none, false⟩

/-- Run a sequence of lifecycle operations from the constructor state. -/
def runCam (ops : List CamOp) : CameraController :=
  ops.foldl camStep initCamera

/-! ## CaptureController (js/capture.js) -/

/-- The two failure modes of `CaptureController.capture`. -/
inductive CaptureError where
  | notReady
  | encodingFailed
deriving DecidableEq

/-- The resolved value of `CaptureController.capture`. -/
structure CaptureResult where
  blob : List ℕ
  width : ℕ
  height : ℕ
  timestamp : ℕ
deriving DecidableEq

/-- The drawing surface: dimensions plus current pixel contents. -/
structure Canvas where
  width : ℕ
  height : ℕ
  content : List ℕ

/-- `CaptureController.capture`: reject with the not-ready error when
`!this.canvas || !this.canvas.width || !this.canvas.height`; otherwise encode
the current surface contents via `toBlob` at the given type/quality
(`encode` models the platform encoder, `none` = `toBlob` produced no data)
and resolve `{blob, width, height, timestamp}`. -/
def capture (canvas : Option Canvas) (encode : List ℕ → String → ℚ → Option (List ℕ))
    (now : ℕ) (type : String) (quality : ℚ) : Except CaptureError CaptureResult :=
  match canvas with
  | none => .error .notReady
  | some c =>
      if c.width = 0 ∨ c.height = 0 then .error .notReady
      else
        match encode c.content type quality with
        | none => .error .encodingFailed
        | some blob => .ok ⟨blob, c.width, c.height, now⟩

/-! ## GalleryController (js/gallery.js)

Object URLs are modelled by a registry: a counter minting fresh handles and
the set of currently live (unrevoked) handles.  `revokeObjectURL` may fail on
an individual handle (`failing`); the `try/catch` in `clear` swallows such a
failure, leaving that handle live. -/

/-- The object-URL registry of the host. -/
structure URLRegistry where
  next : ℕ
  live : Finset ℕ

/-- `URL.createObjectURL`: mint a fresh live handle. -/
def createObjectURL (u : URLRegistry) : ℕ × URLRegistry :=
  (u.next, ⟨u.next + 1, insert u.next u.live⟩)

/-- `URL.revokeObjectURL` wrapped in `try/catch`: when the release of `url`
fails the registry is left unchanged (and the exception is swallowed),
otherwise `url` is removed from the live set. -/
def revokeObjectURL (failing : ℕ → Bool) (url : ℕ) (u : URLRegistry) : URLRegistry :=
  if failing url then u else { u with live := u.live.erase url }

/-- A stored gallery entry. -/
structure GalleryEntry where
  url : ℕ
  blob : List ℕ
  width : ℕ
  height : ℕ
  timestamp : ℕ
deriving DecidableEq

/-- The gallery state: the `items` list. -/
structure GalleryController where
  items : List GalleryEntry
deriving DecidableEq

/-- `GalleryController.add`: mint an object URL for the capture's blob,
append the entry, return it. -/
def GalleryController.add (g : GalleryController) (u : URLRegistry)
    (c : CaptureResult) : GalleryEntry × GalleryController × URLRegistry :=
  let minted := createObjectURL u
  let entry : GalleryEntry := ⟨minted.1, c.blob, c.width, c.height, c.timestamp⟩
  (entry, ⟨g.items ++ [entry]⟩, minted.2)

/-- `GalleryController.clear`: revoke every stored entry's URL in order,
swallowing individual failures, then empty the items list. -/
def GalleryController.clear (failing : ℕ → Bool) (g : GalleryController)
    (u : URLRegistry) : GalleryController × URLRegistry :=
  (⟨[]⟩, g.items.foldl (fun acc e => revokeObjectURL failing e.url acc) u)

/-- A sequence of `add` calls (discarding the returned entries). -/
def addAll (gu : GalleryController × URLRegistry) (cs : List CaptureResult) :
    GalleryController × URLRegistry :=
  cs.foldl (fun acc c => ((acc.1.add acc.2 c).2.1, (acc.1.add acc.2 c).2.2)) gu

/-! ## getCameraConstraints (js/constraints.js) -/

/-- A numeric constraint object: each of the `ideal` / `exact` / `max` keys
may be present or absent. -/
structure NumConstraint where
  ideal : Option ℕ
  exact : Option ℕ
  max : Option ℕ
deriving DecidableEq

/-- The `facingMode` constraint object. -/
structure FacingConstraint where
  ideal : Option String
  exact : Option String
deriving DecidableEq

/-- One advanced hint object. -/
structure AdvancedHint where
  noiseReduction : String
  torch : Bool
deriving DecidableEq

/-- The `video` member of the constraint spec. -/
structure VideoConstraints where
  facingMode : FacingConstraint
  width : NumConstraint
  height : NumConstraint
  frameRate : NumConstraint
  advanced : List AdvancedHint
deriving DecidableEq

/-- The full `getUserMedia` constraint spec. -/
structure ConstraintSpec where
  audio : Bool
  video : VideoConstraints
deriving DecidableEq

/-- `getCameraConstraints`: the literal object built in js/constraints.js
(keys absent from the source object are `none`). -/
def getCameraConstraints (facingMode : String) : ConstraintSpec :=
  { audio := false
    video :=
      { facingMode := { ideal := some facingMode, exact := none }
        width := { ideal := some 1280, exact := none, max := none }
        height := { ideal := some 720, exact := none, max := none }
        frameRate := { ideal := some 30, exact := none, max := some 30 }
        advanced := [{ noiseReduction := "high", torch := false }] } }

/-! ## Properties of the byte store -/

theorem floor_le_rne (x : ℚ) : ⌊x⌋ ≤ rne x := by
  unfold rne
  split_ifs <;> omega

theorem rne_le_floor_add_one (x : ℚ) : rne x ≤ ⌊x⌋ + 1 := by
  unfold rne
  split_ifs <;> omega

theorem rne_intCast (n : ℤ) : rne (n : ℚ) = n := by
  unfold rne
  have h : ((n : ℚ) - ⌊(n : ℚ)⌋) = 0 := by
    rw [Int.floor_intCast]
    ring
  rw [h]
  norm_num

theorem rne_natCast (n : ℕ) : rne (n : ℚ) = n := by
  have h := rne_intCast (n : ℤ)
  rwa [Int.cast_natCast] at h

theorem rne_mono {x y : ℚ} (h : x ≤ y) : rne x ≤ rne y := by
  have hf : ⌊x⌋ ≤ ⌊y⌋ := Int.floor_le_floor h
  rcases eq_or_lt_of_le hf with heq | hlt
  · have hd : x - (⌊x⌋ : ℚ) ≤ y - (⌊y⌋ : ℚ) := by
      rw [← heq]
      linarith
    unfold rne
    rw [← heq]
    rw [← heq] at hd
    split_ifs <;> first | omega | linarith
  · calc rne x ≤ ⌊x⌋ + 1 := rne_le_floor_add_one x
    _ ≤ ⌊y⌋ := by omega
    _ ≤ rne y := floor_le_rne y

/-- The ties-to-even store really rounds to a nearest integer. -/
theorem abs_rne_sub_le (x : ℚ) : |((rne x : ℤ) : ℚ) - x| ≤ 1 / 2 := by
  have hfl := Int.floor_le x
  have hfu := Int.lt_floor_add_one x
  rw [abs_le]
  unfold rne
  split_ifs <;> constructor <;> push_cast <;> linarith

theorem clampStore_natCast {n : ℕ} (h : n ≤ 255) : clampStore (n : ℚ) = n := by
  unfold clampStore
  split_ifs with h1 h2
  · have : (n : ℚ) = 0 := le_antisymm h1 (by positivity)
    exact_mod_cast this.symm
  · have : (255 : ℚ) = n := le_antisymm h2 (by exact_mod_cast h)
    exact_mod_cast this
  · rw [rne_natCast]
    exact Int.toNat_natCast n

theorem clampStore_mono {x y : ℚ} (h : x ≤ y) : clampStore x ≤ clampStore y := by
  have hrne : rne x ≤ rne y := rne_mono h
  have hx255 : ¬ 255 ≤ x → (rne x).toNat ≤ 255 := by
    intro h2
    have hlt : x < 255 := lt_of_not_le h2
    have hfl : ⌊x⌋ < 255 := Int.floor_lt.2 (by exact_mod_cast hlt)
    have := rne_le_floor_add_one x
    omega
  unfold clampStore
  split_ifs with h1 h2 h3 h4 h5 h6 <;>
    first
      | exact Nat.zero_le _
      | omega
      | (exfalso; linarith)
      | (exact hx255 (by assumption))

/-! ## Evaluating `rne`, `log2floorQ` and `fl64` at concrete values -/

theorem rne_eq_of_lt_half {x : ℚ} {n : ℤ} (h1 : (n : ℚ) ≤ x)
    (h2 : x < (n : ℚ) + 1 / 2) : rne x = n := by
  have hf : ⌊x⌋ = n := Int.floor_eq_iff.2 ⟨h1, by linarith⟩
  rw [rne, hf, if_pos (by linarith)]

theorem rne_eq_of_half_lt {x : ℚ} {n m : ℤ} (hm : n + 1 = m)
    (h1 : (n : ℚ) + 1 / 2 < x) (h2 : x < (n : ℚ) + 1) : rne x = m := by
  have hf : ⌊x⌋ = n := Int.floor_eq_iff.2 ⟨by linarith, by linarith⟩
  rw [rne, hf, if_neg (by linarith), if_pos (by linarith), hm]

theorem rne_eq_of_tie_even {x : ℚ} {n : ℤ} (h : x = (n : ℚ) + 1 / 2)
    (he : 2 ∣ n) : rne x = n := by
  have hf : ⌊x⌋ = n := Int.floor_eq_iff.2 ⟨by linarith, by linarith⟩
  rw [rne, hf, if_neg (by linarith), if_neg (by linarith), if_pos he]

theorem rne_eq_of_tie_odd {x : ℚ} {n m : ℤ} (hm : n + 1 = m)
    (h : x = (n : ℚ) + 1 / 2) (ho : ¬ 2 ∣ n) : rne x = m := by
  have hf : ⌊x⌋ = n := Int.floor_eq_iff.2 ⟨by linarith, by linarith⟩
  rw [rne, hf, if_neg (by linarith), if_neg (by linarith), if_neg ho, hm]

theorem log2fuel_eq (fuel a n : ℕ) (hfa : a < fuel) (h1 : 2 ^ a ≤ n)
    (h2 : n < 2 ^ (a + 1)) : log2fuel fuel n = a := by
  induction fuel generalizing a n with
  | zero => omega
  | succ fuel ih =>
      rw [log2fuel]
      split_ifs with hn
      · have ha : a = 0 := by
          by_contra hne
          have h2a : 2 ≤ 2 ^ a := by
            calc (2 : ℕ) = 2 ^ 1 := rfl
            _ ≤ 2 ^ a := Nat.pow_le_pow_right (by norm_num) (by omega)
          omega
        omega
      · cases a with
        | zero =>
            norm_num at h2
            omega
        | succ a2 =>
            have hd1 : 2 ^ a2 ≤ n / 2 := by
              rw [Nat.le_div_iff_mul_le (by norm_num)]
              calc 2 ^ a2 * 2 = 2 ^ (a2 + 1) := by ring
              _ ≤ n := h1
            have hd2 : n / 2 < 2 ^ (a2 + 1) := by
              rw [Nat.div_lt_iff_lt_mul (by norm_num)]
              calc n < 2 ^ (a2 + 1 + 1) := h2
              _ = 2 ^ (a2 + 1) * 2 := by ring
            rw [ih a2 (n / 2) (by omega) hd1 hd2]

theorem log2floorQ_eval {x : ℚ} (a : ℕ) (ha : a < 70)
    (h1 : (2 : ℚ) ^ a ≤ x * 2 ^ 60) (h2 : x * 2 ^ 60 < 2 ^ (a + 1)) :
    log2floorQ x = (a : ℤ) - 60 := by
  have hx : (0 : ℚ) ≤ x * 2 ^ 60 := le_trans (by positivity) h1
  have hfl1 : 2 ^ a ≤ ⌊x * 2 ^ 60⌋₊ := Nat.le_floor (by push_cast; exact h1)
  have hfl2 : ⌊x * 2 ^ 60⌋₊ < 2 ^ (a + 1) := by
    rw [Nat.floor_lt hx]
    push_cast
    exact h2
  rw [log2floorQ, log2fuel_eq 70 a _ ha hfl1 hfl2]

/-- Evaluation scheme for `fl64` at a concrete rational: supply the binade
exponent, the rounded significand and the resulting value. -/
theorem fl64_eval {x : ℚ} (a : ℕ) {m : ℤ} {y : ℚ} (ha : a < 70) (hx : 0 < x)
    (h1 : (2 : ℚ) ^ a ≤ x * 2 ^ 60) (h2 : x * 2 ^ 60 < 2 ^ (a + 1))
    (hm : rne (x * 2 ^ ((52 : ℤ) - ((a : ℤ) - 60))) = m)
    (hy : ((m : ℤ) : ℚ) / 2 ^ ((52 : ℤ) - ((a : ℤ) - 60)) = y) :
    fl64 x = y := by
  rw [fl64, if_neg (not_le.2 hx), log2floorQ_eval a ha h1 h2, hm, hy]

theorem fl64_zero : fl64 0 = 0 := by
  rw [fl64, if_pos le_rfl]

/-! ## Per-channel facts for the warm filter -/

theorem warm_red_ge {r : ℕ} (h : r ≤ 255) :
    r ≤ clampStore (min 255 ((r : ℚ) * 1.05)) := by
  have hge : (r : ℚ) ≤ min 255 ((r : ℚ) * 1.05) := by
    refine le_min (by exact_mod_cast h) ?_
    have : (0 : ℚ) ≤ r := by positivity
    nlinarith
  calc r = clampStore (r : ℚ) := (clampStore_natCast h).symm
  _ ≤ clampStore (min 255 ((r : ℚ) * 1.05)) := clampStore_mono hge

theorem warm_blue_le {b : ℕ} (h : b ≤ 255) :
    clampStore (max 0 ((b : ℚ) * 0.95)) ≤ b := by
  have hle : max 0 ((b : ℚ) * 0.95) ≤ (b : ℚ) := by
    refine max_le (by positivity) ?_
    have : (0 : ℚ) ≤ b := by positivity
    nlinarith
  calc clampStore (max 0 ((b : ℚ) * 0.95)) ≤ clampStore (b : ℚ) := clampStore_mono hle
  _ = b := clampStore_natCast h

/-! ## Buffer-level characterizations -/

theorem grayscaleData_flatten (ps : List Pixel) :
    grayscaleData (flatten ps) = flatten (ps.map grayPixelSpec) := by
  induction ps with
  | nil => rfl
  | cons p rest ih =>
      obtain ⟨r, g, b, a⟩ := p
      simp only [flatten, List.map, grayscaleData, grayPixelSpec, ih]

theorem warmData_flatten (ps : List Pixel) :
    warmData (flatten ps) = flatten (ps.map warmPixelSpec) := by
  induction ps with
  | nil => rfl
  | cons p rest ih =>
      obtain ⟨r, g, b, a⟩ := p
      simp only [flatten, List.map, warmData, warmPixelSpec, ih]

theorem lutPass_flatten (lut : List ℕ) (size : ℕ) (ps : List Pixel) :
    lutPass lut size (flatten ps) = flatten (ps.map (lutPixelSpec64 lut size)) := by
  induction ps with
  | nil => rfl
  | cons p rest ih =>
      obtain ⟨r, g, b, a⟩ := p
      simp only [flatten, List.map, lutPass, lutPixelSpec64, lutIndex64, ih]

/-! ## Claim theorems -/

/-- C1 counterexample: at table size 148 the binary64 scale `147 / 255`
falls just below the exact quotient, so for channel 85 the code computes
bucket `⌊48.99999999999999⌋ = 48` while the claimed exact formula
`clamp(⌊85 × 147/255⌋, 0, 147)` gives 49: on a one-pixel buffer the
program reads table offset 192, not the claimed 196. -/
theorem lut_quantization_counterexample :
    LUTEngine.apply ⟨some (List.range 200), 148⟩ (flatten [(85, 0, 0, 9)]) =
      flatten [(192, 193, 194, 9)] ∧
    flatten ([((85 : ℕ), (0 : ℕ), (0 : ℕ), (9 : ℕ))].map
        (lutPixelSpec (List.range 200) 148)) =
      flatten [(196, 197, 198, 9)] ∧
    flatten [((192 : ℕ), (193 : ℕ), (194 : ℕ), (9 : ℕ))] ≠
      flatten [(196, 197, 198, 9)] := by
  refine ⟨?_, ?_, by decide⟩
  · have hs1 : fl64 ((147 : ℚ) / 255) = 5192385452733042 / 2 ^ 53 := by
      refine fl64_eval 59 (by norm_num) (by norm_num) (by norm_num) (by norm_num)
        (rne_eq_of_lt_half (n := 5192385452733042) (by norm_num) (by norm_num)) ?_
      norm_num
    have hp1 : fl64 ((85 : ℚ) * (5192385452733042 / 2 ^ 53)) =
        6896136929411071 / 2 ^ 47 := by
      refine fl64_eval 65 (by norm_num) (by norm_num) (by norm_num) (by norm_num)
        (rne_eq_of_lt_half (n := 6896136929411071) (by norm_num) (by norm_num)) ?_
      norm_num
    have hb1 : (⌊(6896136929411071 / 2 ^ 47 : ℚ)⌋₊ : ℕ) = 48 := by
      rw [Nat.floor_eq_iff (by positivity)]
      norm_num
    have h85 : lutIndex64 148 85 = 48 := by
      unfold lutIndex64
      simp only [show ((148 : ℕ) - 1 : ℕ) = 147 from by norm_num, Nat.cast_ofNat]
      rw [hs1, hp1, hb1]
      decide
    have h0 : lutIndex64 148 0 = 0 := by
      unfold lutIndex64
      simp only [Nat.cast_zero, zero_mul, fl64_zero, Nat.floor_zero]
      decide
    have happ : LUTEngine.apply ⟨some (List.range 200), 148⟩ (flatten [(85, 0, 0, 9)]) =
        lutPass (List.range 200) 148 (flatten [(85, 0, 0, 9)]) := by
      simp [LUTEngine.apply]
    rw [happ, lutPass_flatten]
    simp only [List.map, lutPixelSpec64, h85, h0]
    norm_num
  · have hfe : (⌊(85 : ℚ) * 147 / 255⌋₊ : ℕ) = 49 := by
      rw [Nat.floor_eq_iff (by positivity)]
      norm_num
    have he85 : lutIndexSpec 148 85 = 49 := by
      unfold lutIndexSpec
      simp only [show ((148 : ℕ) - 1 : ℕ) = 147 from by norm_num, Nat.cast_ofNat]
      rw [hfe]
      decide
    have he0 : lutIndexSpec 148 0 = 0 := by
      unfold lutIndexSpec
      simp only [Nat.cast_zero, zero_mul, zero_div, Nat.floor_zero]
      decide
    simp only [List.map, lutPixelSpec, he85, he0]
    norm_num

/-- C1 (amended): `LUTEngine.apply` returns the buffer unchanged when no
table is loaded (`lut` null or `size` 0); otherwise every pixel's R, G, B
are replaced by the table bytes at the flattened offset
`(rIdx + gIdx·size + bIdx·size²) · 4` where each bucket index is
`min(size−1, ⌊channel · s⌋)` with `s` the binary64 value of `(size−1)/255`
and the product `channel · s` likewise rounded to binary64, and alpha is
unchanged. -/
theorem lut_apply_spec (e : LUTEngine) (ps : List Pixel) :
    ((e.lut = none ∨ e.size = 0) → e.apply (flatten ps) = flatten ps) ∧
    (∀ lut, e.lut = some lut → e.size ≠ 0 →
      e.apply (flatten ps) = flatten (ps.map (lutPixelSpec64 lut e.size))) := by
  constructor
  · rintro (h | h)
    · simp [LUTEngine.apply, h]
    · unfold LUTEngine.apply
      cases e.lut with
      | none => rfl
      | some lut => simp [h]
  · intro lut hl hs
    simp [LUTEngine.apply, hl, hs, lutPass_flatten]

/-- C1 witness: an engine with no table is the identity on a concrete
buffer; an engine with a loaded 2×2×2 table remaps a concrete pixel to the
table entry of its bucket. -/
theorem lut_apply_spec_witness :
    LUTEngine.apply ⟨none, 16⟩ (flatten [(1, 2, 3, 4)]) = flatten [(1, 2, 3, 4)] ∧
    LUTEngine.apply
        ⟨some [0, 1, 2, 3, 4, 5, 6, 7, 8, 9, 10, 11, 12, 13, 14, 15,
               16, 17, 18, 19, 20, 21, 22, 23, 24, 25, 26, 27, 28, 29, 30, 31], 2⟩
        (flatten [(255, 0, 128, 33)]) =
      flatten ([((255 : ℕ), (0 : ℕ), (128 : ℕ), (33 : ℕ))].map
        (lutPixelSpec64 [0, 1, 2, 3, 4, 5, 6, 7, 8, 9, 10, 11, 12, 13, 14, 15,
               16, 17, 18, 19, 20, 21, 22, 23, 24, 25, 26, 27, 28, 29, 30, 31] 2)) :=
  ⟨(lut_apply_spec ⟨none, 16⟩ [(1, 2, 3, 4)]).1 (Or.inl rfl),
   (lut_apply_spec ⟨some [0, 1, 2, 3, 4, 5, 6, 7, 8, 9, 10, 11, 12, 13, 14, 15,
               16, 17, 18, 19, 20, 21, 22, 23, 24, 25, 26, 27, 28, 29, 30, 31], 2⟩
       [(255, 0, 128, 33)]).2 _ rfl (by decide)⟩

/-- C2 counterexample: at input pixel (0, 41, 44) the binary64 luma
`0.7152·41 + 0.0722·44` is exactly 32.5; the grayscale pass stores 32 into
every colour channel (the byte store rounds ties to even), whereas the
claimed `round` of the luma is 33. -/
theorem grayscale_round_counterexample :
    grayscaleData [0, 41, 44, 7] = [32, 32, 32, 7] ∧
    round (lumaQ 0 41 44) = 33 ∧ (32 : ℕ) ≠ 33 := by
  refine ⟨?_, ?_, by decide⟩
  · have hc2 : fl64 (0.7152 : ℚ) = 6441948906990757 / 2 ^ 53 := by
      refine fl64_eval 59 (by norm_num) (by norm_num) (by norm_num) (by norm_num)
        (rne_eq_of_lt_half (n := 6441948906990757) (by norm_num) (by norm_num)) ?_
      norm_num
    have hp2 : fl64 ((6441948906990757 / 2 ^ 53 : ℚ) * 41) =
        8253747037081907 / 2 ^ 48 := by
      refine fl64_eval 64 (by norm_num) (by norm_num) (by norm_num) (by norm_num)
        (rne_eq_of_lt_half (n := 8253747037081907) (by norm_num) (by norm_num)) ?_
      norm_num
    have hc3 : fl64 (0.0722 : ℚ) = 5202558289538397 / 2 ^ 56 := by
      refine fl64_eval 56 (by norm_num) (by norm_num) (by norm_num) (by norm_num)
        (rne_eq_of_half_lt (n := 5202558289538396) (m := 5202558289538397)
          (by norm_num) (by norm_num) (by norm_num)) ?_
      norm_num
    have hp3 : fl64 ((5202558289538397 / 2 ^ 56 : ℚ) * 44) =
        7153517648115296 / 2 ^ 51 := by
      refine fl64_eval 61 (by norm_num) (by norm_num) (by norm_num) (by norm_num)
        (rne_eq_of_half_lt (n := 7153517648115295) (m := 7153517648115296)
          (by norm_num) (by norm_num) (by norm_num)) ?_
      norm_num
    have hinner : fl64 ((8253747037081907 / 2 ^ 48 : ℚ)) =
        8253747037081907 / 2 ^ 48 := by
      refine fl64_eval 64 (by norm_num) (by norm_num) (by norm_num) (by norm_num)
        (rne_eq_of_lt_half (n := 8253747037081907) (by norm_num) (by norm_num)) ?_
      norm_num
    have hsum : fl64 ((8253747037081907 / 2 ^ 48 : ℚ) + 7153517648115296 / 2 ^ 51) =
        65 / 2 := by
      refine fl64_eval 65 (by norm_num) (by norm_num) (by norm_num) (by norm_num)
        (rne_eq_of_tie_odd (n := 4573968371548159) (m := 4573968371548160)
          (by norm_num) (by norm_num) (by norm_num)) ?_
      norm_num
    have hstore : clampStore (65 / 2 : ℚ) = 32 := by
      rw [clampStore, if_neg (by norm_num), if_neg (by norm_num),
        rne_eq_of_tie_even (n := 32) (by norm_num) (by norm_num)]
      decide
    simp only [grayscaleData, lumaD, Nat.cast_ofNat, Nat.cast_zero, mul_zero,
      fl64_zero, zero_add, hc2, hp2, hc3, hp3, hinner, hsum, hstore]
  · norm_num [lumaQ, round_eq]

/-- C2 (amended): after one grayscale pass every pixel's three colour
channels all equal the result of computing the BT.709 luma
`0.2126·R + 0.7152·G + 0.0722·B` in binary64 arithmetic and storing it via
the `Uint8ClampedArray` clamp-and-round-to-nearest (ties to even); alpha is
unchanged, and the stored rounding differs from the computed luma by at
most 1/2. -/
theorem grayscale_bt709 (ps : List Pixel) :
    grayscaleData (flatten ps) = flatten (ps.map grayPixelSpec) ∧
    ∀ p ∈ ps,
      |((rne (lumaD p.1 p.2.1 p.2.2.1) : ℤ) : ℚ) - lumaD p.1 p.2.1 p.2.2.1| ≤ 1 / 2 :=
  ⟨grayscaleData_flatten ps, fun _ _ => abs_rne_sub_le _⟩

/-- C2 witness: the amended claim at the concrete buffer of the single
pixel (255, 0, 0, 9). -/
theorem grayscale_bt709_witness :
    grayscaleData (flatten [(255, 0, 0, 9)]) =
      flatten ([((255 : ℕ), (0 : ℕ), (0 : ℕ), (9 : ℕ))].map grayPixelSpec) ∧
    ∀ p ∈ [((255 : ℕ), (0 : ℕ), (0 : ℕ), (9 : ℕ))],
      |((rne (lumaD p.1 p.2.1 p.2.2.1) : ℤ) : ℚ) - lumaD p.1 p.2.1 p.2.2.1| ≤ 1 / 2 :=
  grayscale_bt709 [(255, 0, 0, 9)]

/-- C9: after one warm-filter pass, every pixel's red channel is ≥ its
pre-filter value and its blue channel is ≤ its pre-filter value (within the
store rounding), while green and alpha are unchanged. -/
theorem warm_filter_monotone (ps : List Pixel) (h : ByteBuffer ps) :
    warmData (flatten ps) = flatten (ps.map warmPixelSpec) ∧
    ∀ p ∈ ps, p.1 ≤ (warmPixelSpec p).1 ∧ (warmPixelSpec p).2.2.1 ≤ p.2.2.1 ∧
      (warmPixelSpec p).2.1 = p.2.1 ∧ (warmPixelSpec p).2.2.2 = p.2.2.2 :=
  ⟨warmData_flatten ps, fun p hp =>
    ⟨warm_red_ge (h p hp).1, warm_blue_le (h p hp).2.2.1, rfl, rfl⟩⟩

/-- C9 witness: the warm pass on the single pixel (100, 3, 30, 8). -/
theorem warm_filter_monotone_witness :
    warmData (flatten [(100, 3, 30, 8)]) =
      flatten ([((100 : ℕ), (3 : ℕ), (30 : ℕ), (8 : ℕ))].map warmPixelSpec) ∧
    ∀ p ∈ [((100 : ℕ), (3 : ℕ), (30 : ℕ), (8 : ℕ))],
      p.1 ≤ (warmPixelSpec p).1 ∧ (warmPixelSpec p).2.2.1 ≤ p.2.2.1 ∧
      (warmPixelSpec p).2.1 = p.2.1 ∧ (warmPixelSpec p).2.2.2 = p.2.2.2 :=
  warm_filter_monotone [(100, 3, 30, 8)] (by unfold ByteBuffer; decide)

/-- C3: during a render step with a readable source and a nonzero-sized
surface, exposure is applied as a single uniform white overlay of opacity
`(2^EV − 1) × 0.15`, and when `EV = 0` no fill is performed at all, leaving
the drawn frame unmodified by the exposure stage. -/
theorem render_exposure_overlay (readyState w h : ℕ) (ev : ℚ) (name : String)
    (hready : ¬ readyState < 2) (hw : w ≠ 0) (hh : h ≠ 0) :
    (ev = 0 → renderStepOps true readyState w h ev name =
      [CanvasOp.drawImage w h, CanvasOp.filterPass name]) ∧
    (ev ≠ 0 → renderStepOps true readyState w h ev name =
      [CanvasOp.drawImage w h,
       CanvasOp.fillRect ⟨255, 255, 255, ((2 : ℝ) ^ ((ev : ℚ) : ℝ) - 1) * 0.15⟩ 0 0 w h,
       CanvasOp.filterPass name]) := by
  constructor
  · intro h0
    simp [renderStepOps, exposureOps, h0, hready, hw, hh]
  · intro h0
    simp [renderStepOps, exposureOps, h0, hready, hw, hh]

/-- C3 witness: the render step at exposure 0 performs no fill; at exposure
1 it fills the full surface with white at opacity `(2^1 − 1) × 0.15`. -/
theorem render_exposure_overlay_witness :
    renderStepOps true 2 4 3 0 "none" =
      [CanvasOp.drawImage 4 3, CanvasOp.filterPass "none"] ∧
    renderStepOps true 2 4 3 1 "none" =
      [CanvasOp.drawImage 4 3,
       CanvasOp.fillRect ⟨255, 255, 255, ((2 : ℝ) ^ (((1 : ℚ)) : ℝ) - 1) * 0.15⟩ 0 0 4 3,
       CanvasOp.filterPass "none"] :=
  ⟨(render_exposure_overlay 2 4 3 0 "none" (by norm_num) (by norm_num) (by norm_num)).1 rfl,
   (render_exposure_overlay 2 4 3 1 "none" (by norm_num) (by norm_num) (by norm_num)).2
     (by norm_num)⟩

/-- The strengthened camera invariant: the track handle and the stream
handle are each held exactly when the session is running. -/
def camInv (s : CameraController) : Prop :=
  s.videoTrack.isSome = s.isRunning ∧ s.stream.isSome = s.isRunning

theorem camInv_init : camInv initCamera := ⟨rfl, rfl⟩

theorem camInv_step (s : CameraController) (op : CamOp) (hs : camInv s)
    (hgood : ∀ ts, op = CamOp.start (some ts) → ts ≠ []) : camInv (camStep s op) := by
  cases op with
  | start outcome =>
      by_cases hr : s.isRunning
      · simpa [camStep, hr] using hs
      · cases outcome with
        | none => simpa [camStep, hr] using hs
        | some ts =>
            have hts : ts ≠ [] := hgood ts rfl
            cases ts with
            | nil => exact absurd rfl hts
            | cons t ts2 => simp [camStep, hr, camInv]
  | stop =>
      cases hstream : s.stream with
      | none => simpa [camStep, hstream] using hs
      | some l => simp [camStep, hstream, camInv]

theorem camInv_foldl (ops : List CamOp) (s : CameraController) (hs : camInv s)
    (hgood : ∀ ts, CamOp.start (some ts) ∈ ops → ts ≠ []) :
    camInv (ops.foldl camStep s) := by
  induction ops generalizing s with
  | nil => exact hs
  | cons op rest ih =>
      refine ih (camStep s op) (camInv_step s op hs ?_) ?_
      · intro ts hop
        exact hgood ts (by rw [hop]; exact List.mem_cons_self _ _)
      · intro ts hmem
        exact hgood ts (List.mem_cons_of_mem _ hmem)

/-- C4: in every state reachable by any sequence of `start`/`stop` calls
from the constructor state — where every successful acquisition yields a
stream with at least one video track — a video track handle is held if and
only if the session is running. -/
theorem camera_track_iff_running (ops : List CamOp)
    (hgood : ∀ ts, CamOp.start (some ts) ∈ ops → ts ≠ []) :
    (runCam ops).videoTrack.isSome = true ↔ (runCam ops).isRunning = true := by
  have h := camInv_foldl ops initCamera camInv_init hgood
  unfold runCam
  rw [h.1]

/-- C4 witness: a concrete start/stop/start/stop/stop sequence. -/
theorem camera_track_iff_running_witness :
    (runCam [CamOp.start (some [5]), CamOp.stop, CamOp.start none,
             CamOp.start (some [2, 3]), CamOp.stop, CamOp.stop]).videoTrack.isSome = true ↔
    (runCam [CamOp.start (some [5]), CamOp.stop, CamOp.start none,
             CamOp.start (some [2, 3]), CamOp.stop, CamOp.stop]).isRunning = true :=
  camera_track_iff_running _ (by
    intro ts h
    simp only [List.mem_cons, List.not_mem_nil, or_false, CamOp.start.injEq,
      Option.some.injEq, reduceCtorEq, false_or] at h
    rcases h with rfl | rfl <;> simp)

/-- C5: `capture` rejects with the not-ready error (and resolves no result)
when the surface is missing or has zero width or height; otherwise it hands
the current surface contents to the encoder at the given format and quality,
failing with the encoding error exactly when the encoder produces no data
and otherwise resolving `{blob, width, height, timestamp}` with the surface
dimensions. -/
theorem capture_spec (c : Canvas) (encode : List ℕ → String → ℚ → Option (List ℕ))
    (now : ℕ) (type : String) (quality : ℚ) :
    (capture none encode now type quality = .error .notReady) ∧
    ((c.width = 0 ∨ c.height = 0) →
      capture (some c) encode now type quality = .error .notReady) ∧
    (c.width ≠ 0 → c.height ≠ 0 →
      ((capture (some c) encode now type quality = .error .encodingFailed ↔
          encode c.content type quality = none) ∧
        ∀ blob, encode c.content type quality = some blob →
          capture (some c) encode now type quality =
            .ok ⟨blob, c.width, c.height, now⟩)) := by
  refine ⟨rfl, ?_, ?_⟩
  · intro hz
    simp [capture, hz]
  · intro hw hh
    constructor
    · cases henc : encode c.content type quality with
      | none => simp [capture, hw, hh, henc]
      | some blob => simp [capture, hw, hh, henc]
    · intro blob henc
      simp [capture, hw, hh, henc]

/-- C5 witness: a 2×2 surface with an encoder that produces data, the same
surface with an encoder that produces none, and a zero-width surface. -/
theorem capture_spec_witness :
    capture (some ⟨2, 2, [1, 2, 3, 4]⟩) (fun content _ _ => some content) 99
        "image/jpeg" 0.92 = .ok ⟨[1, 2, 3, 4], 2, 2, 99⟩ ∧
    capture (some ⟨2, 2, [1, 2, 3, 4]⟩) (fun _ _ _ => none) 99
        "image/jpeg" 0.92 = .error .encodingFailed ∧
    capture (some ⟨0, 7, []⟩) (fun content _ _ => some content) 99
        "image/jpeg" 0.92 = .error .notReady :=
  ⟨((capture_spec ⟨2, 2, [1, 2, 3, 4]⟩ (fun content _ _ => some content) 99
        "image/jpeg" 0.92).2.2 (by decide) (by decide)).2 [1, 2, 3, 4] rfl,
   ((capture_spec ⟨2, 2, [1, 2, 3, 4]⟩ (fun _ _ _ => none) 99
        "image/jpeg" 0.92).2.2 (by decide) (by decide)).1.2 rfl,
   (capture_spec ⟨0, 7, []⟩ (fun content _ _ => some content) 99
        "image/jpeg" 0.92).2.1 (Or.inl rfl)⟩

theorem revoke_live_subset (failing : ℕ → Bool) (url : ℕ) (u : URLRegistry) :
    (revokeObjectURL failing url u).live ⊆ u.live := by
  unfold revokeObjectURL
  split_ifs
  · exact Finset.Subset.refl _
  · exact Finset.erase_subset _ _

theorem clear_foldl_subset (failing : ℕ → Bool) (items : List GalleryEntry)
    (u : URLRegistry) :
    (items.foldl (fun acc e => revokeObjectURL failing e.url acc) u).live ⊆ u.live := by
  induction items generalizing u with
  | nil => exact Finset.Subset.refl _
  | cons e rest ih =>
      exact (ih (revokeObjectURL failing e.url u)).trans
        (revoke_live_subset failing e.url u)

theorem clear_foldl_not_mem (failing : ℕ → Bool) (items : List GalleryEntry)
    (u : URLRegistry) (e : GalleryEntry) (he : e ∈ items)
    (hok : failing e.url = false) :
    e.url ∉ (items.foldl (fun acc e => revokeObjectURL failing e.url acc) u).live := by
  induction items generalizing u with
  | nil => exact absurd he (List.not_mem_nil e)
  | cons e0 rest ih =>
      rcases List.mem_cons.1 he with heq | hmem
      · subst heq
        intro hcontra
        have hsub := clear_foldl_subset failing rest (revokeObjectURL failing e.url u)
        have hmem2 : e.url ∈ (revokeObjectURL failing e.url u).live := hsub hcontra
        simp [revokeObjectURL, hok] at hmem2
      · exact ih (revokeObjectURL failing e0.url u) hmem

/-- C6: `clear` empties the items list unconditionally (individual release
failures are swallowed; cleanup never aborts partway), every stored entry
whose release does not fail has its handle removed from the live registry,
and `clear` on an already-empty gallery is a harmless no-op — so `add`
immediately followed by `clear` leaves zero entries and invalidates the
returned handle. -/
theorem gallery_clear_spec (g : GalleryController) (u : URLRegistry)
    (failing : ℕ → Bool) :
    (GalleryController.clear failing g u).1.items = [] ∧
    (∀ e ∈ g.items, failing e.url = false →
      e.url ∉ (GalleryController.clear failing g u).2.live) ∧
    (∀ u0 : URLRegistry, GalleryController.clear failing ⟨[]⟩ u0 = (⟨[]⟩, u0)) := by
  refine ⟨rfl, ?_, fun u0 => rfl⟩
  intro e he hok
  exact clear_foldl_not_mem failing g.items u e he hok

/-- C6 witness: one `add` into an empty gallery followed by `clear` with no
release failures leaves zero entries, removes the minted handle from the
live set, and a redundant second `clear` is a no-op. -/
theorem gallery_clear_spec_witness :
    (GalleryController.clear (fun _ => false)
        (GalleryController.add ⟨[]⟩ ⟨0, ∅⟩ ⟨[1, 2], 2, 1, 7⟩).2.1
        (GalleryController.add ⟨[]⟩ ⟨0, ∅⟩ ⟨[1, 2], 2, 1, 7⟩).2.2).1.items = [] ∧
    (GalleryController.add ⟨[]⟩ ⟨0, ∅⟩ ⟨[1, 2], 2, 1, 7⟩).1.url ∉
      (GalleryController.clear (fun _ => false)
        (GalleryController.add ⟨[]⟩ ⟨0, ∅⟩ ⟨[1, 2], 2, 1, 7⟩).2.1
        (GalleryController.add ⟨[]⟩ ⟨0, ∅⟩ ⟨[1, 2], 2, 1, 7⟩).2.2).2.live ∧
    GalleryController.clear (fun _ => false) ⟨[]⟩ ⟨1, ∅⟩ = (⟨[]⟩, ⟨1, ∅⟩) :=
  ⟨(gallery_clear_spec (GalleryController.add ⟨[]⟩ ⟨0, ∅⟩ ⟨[1, 2], 2, 1, 7⟩).2.1
      (GalleryController.add ⟨[]⟩ ⟨0, ∅⟩ ⟨[1, 2], 2, 1, 7⟩).2.2 (fun _ => false)).1,
   (gallery_clear_spec (GalleryController.add ⟨[]⟩ ⟨0, ∅⟩ ⟨[1, 2], 2, 1, 7⟩).2.1
      (GalleryController.add ⟨[]⟩ ⟨0, ∅⟩ ⟨[1, 2], 2, 1, 7⟩).2.2 (fun _ => false)).2.1
      (GalleryController.add ⟨[]⟩ ⟨0, ∅⟩ ⟨[1, 2], 2, 1, 7⟩).1 (by decide) rfl,
   (gallery_clear_spec (GalleryController.add ⟨[]⟩ ⟨0, ∅⟩ ⟨[1, 2], 2, 1, 7⟩).2.1
      (GalleryController.add ⟨[]⟩ ⟨0, ∅⟩ ⟨[1, 2], 2, 1, 7⟩).2.2 (fun _ => false)).2.2 ⟨1, ∅⟩⟩

/-- C7: `FrameProcessor.setExposure` stores a value in `[-2, 2]` for every
input; inputs beyond the range are clamped to the nearest bound (so `10`
stores `2` and `-100` stores `-2`), and in-range inputs are stored as-is. -/
theorem setExposure_clamps (s : FilterEngine) (ev : ℚ) :
    (-2 ≤ (s.setExposure ev).exposureEV ∧ (s.setExposure ev).exposureEV ≤ 2) ∧
    (2 ≤ ev → (s.setExposure ev).exposureEV = 2) ∧
    (ev ≤ -2 → (s.setExposure ev).exposureEV = -2) ∧
    (-2 ≤ ev → ev ≤ 2 → (s.setExposure ev).exposureEV = ev) := by
  unfold FilterEngine.setExposure
  refine ⟨⟨le_max_left _ _, max_le (by norm_num) (min_le_left _ _)⟩, ?_, ?_, ?_⟩
  · intro h
    simp only
    rw [min_eq_left h, max_eq_right (by norm_num : (-2 : ℚ) ≤ 2)]
  · intro h
    simp only
    rw [min_eq_right (by linarith), max_eq_left h]
  · intro h1 h2
    simp only
    rw [min_eq_right h2, max_eq_right h1]

/-- C7 witness: input `10` stores `2` and input `-100` stores `-2`. -/
theorem setExposure_clamps_witness :
    (FilterEngine.setExposure ⟨0, "none"⟩ 10).exposureEV = 2 ∧
    (FilterEngine.setExposure ⟨0, "none"⟩ (-100)).exposureEV = -2 :=
  ⟨(setExposure_clamps ⟨0, "none"⟩ 10).2.1 (by norm_num),
   (setExposure_clamps ⟨0, "none"⟩ (-100)).2.2.1 (by norm_num)⟩

/-- C8: for every facing preference, `getCameraConstraints` disables audio
and emits only "ideal" preferences — no `exact` key for facing, width,
height or frame rate; width ideal 1280, height ideal 720, frame rate ideal
30 with max 30, facing ideal equal to the requested preference. -/
theorem constraints_no_exact (facing : String) :
    (getCameraConstraints facing).audio = false ∧
    (getCameraConstraints facing).video.facingMode = ⟨some facing, none⟩ ∧
    (getCameraConstraints facing).video.width = ⟨some 1280, none, none⟩ ∧
    (getCameraConstraints facing).video.height = ⟨some 720, none, none⟩ ∧
    (getCameraConstraints facing).video.frameRate = ⟨some 30, none, some 30⟩ :=
  ⟨rfl, rfl, rfl, rfl, rfl⟩

/-- C10: `setFilter` stores any name without error, and the filter stage of
the render step leaves the surface buffer unchanged for every selector other
than "mono", "warm" and "cool". -/
theorem unknown_filter_is_identity (s : FilterEngine) (name : String) (data : List ℕ) :
    (s.setFilter name).activeFilter = name ∧
    (name ≠ "mono" → name ≠ "warm" → name ≠ "cool" →
      applyFilterData name data = data) := by
  refine ⟨rfl, ?_⟩
  intro h1 h2 h3
  simp [applyFilterData, h1, h2, h3]

/-- C10 witness: the selectors "none" and "" are stored verbatim and leave a
concrete buffer untouched. -/
theorem unknown_filter_is_identity_witness :
    (FilterEngine.setFilter ⟨0, "mono"⟩ "none").activeFilter = "none" ∧
    applyFilterData "none" [10, 20, 30, 40] = [10, 20, 30, 40] ∧
    applyFilterData "" [7, 8, 9, 10] = [7, 8, 9, 10] :=
  ⟨(unknown_filter_is_identity ⟨0, "mono"⟩ "none" []).1,
   (unknown_filter_is_identity ⟨0, "mono"⟩ "none" [10, 20, 30, 40]).2
     (by decide) (by decide) (by decide),
   (unknown_filter_is_identity ⟨0, "mono"⟩ "" [7, 8, 9, 10]).2
     (by decide) (by decide) (by decide)⟩

end CamPipeline
